import Mathlib

/-!
Verification of the pytest-speed measurement engine
(`pytest_speed/main.py`) against its natural-language specification.

The Python code is shallowly embedded: machine integers become `ℤ`/`ℕ`,
Python floats become exact rationals `ℚ`, the monotonic clock
`perf_counter_ns` becomes an oracle `ticks : ℕ → ℤ × ℤ` giving the
`(tic, toc)` pair observed at each measured round, and fallible code
(Python exceptions) returns `Option`/`Except`.
-/

namespace PytestSpeed

/-- Python `int(x)` on a float/rational: truncation toward zero
(`Int.tdiv` on the reduced fraction). -/
def pyInt (q : ℚ) : ℤ := q.num.tdiv (q.den : ℤ)

/-- Round half to even (Python float formatting tie-breaking), using the
structural `Rat.floor` so that it evaluates by kernel reduction. -/
def rndHE (q : ℚ) : ℤ :=
  let f := q.floor
  if q - (f : ℚ) < 1/2 then f
  else if 1/2 < q - (f : ℚ) then f + 1
  else if f % 2 = 0 then f else f + 1

/-- Two-digit zero padding for the fractional part. -/
def pad2 (n : ℕ) : String := if n < 10 then "0" ++ toString n else toString n

/-- Python `f-string` fixed formatting with two decimals, `f'{q:0.2f}'`.
(Python formats the binary double; on the exactly-representable values used
here the results agree.) -/
def fmtFixed2 (q : ℚ) : String :=
  let n : ℤ := rndHE (q * 100)
  let m : ℕ := n.natAbs
  let s : String := toString (m / 100) ++ "." ++ pad2 (m % 100)
  if n < 0 then "-" ++ s else s

/-- Python percent formatting `f'{q:0.2%}'`: value times 100, two decimals,
a percent sign. -/
def fmtPercent (q : ℚ) : String := fmtFixed2 (q * 100) ++ "%"

/-- The anomaly warning string `f'{high_prop:0.2%} of iterations are high!'`. -/
def highWarning (high_prop : ℚ) : String :=
  fmtPercent high_prop ++ " of iterations are high!"

/-- `BenchmarkConfig`: configuration constants (source defines them as fixed
class attributes; we keep them as fields with the source's default values so
claims quantifying over configurations can be stated). -/
structure BenchmarkConfig where
  warmup_time_ns : ℕ := 1000000000
  warmup_max_iterations : ℕ := 5000
  max_rounds : ℕ := 10000
  max_time_ns : ℕ := 3000000000
  high_percentage : ℕ := 10
  ideal_rounds : ℕ := 100
  min_rounds : ℕ := 30
  ideal_iterations : ℕ := 10000
  min_iterations : ℕ := 1000
deriving DecidableEq

/-- The default configuration (all source default values). -/
def defaultConfig : BenchmarkConfig := {}

/-- `Benchmark`: the result record of a single benchmark.

`stddev_ns` in the source holds `statistics.stdev(times)`, the square root
of the sample variance; the square root of a rational is irrational, so this
embedding stores the sample variance itself.  No claim depends on the value
of this field; its fallibility (`stdev` raises on fewer than two rounds) is
preserved in `mkBench`. -/
structure Benchmark where
  name : String
  group : Option String
  best_ns : ℤ
  worse_ns : ℤ
  mean_ns : ℚ
  stddev_ns : ℚ
  bench_time_ns : ℤ
  rounds : ℕ
  iter_per_round : ℤ
  high_rounds : ℕ
  warnings : List String
deriving DecidableEq

/-- The calibration arithmetic of `BenchmarkRun._warmup` (source lines
131-139), as a function of the measured warmup mean `mean_warmup` (the
sampling loop only produces that mean; a constant-time callable with
per-call cost `m` yields `mean_warmup = m`).  Python raises
`ZeroDivisionError` when a divisor is zero; theorems about this definition
carry positivity hypotheses that keep the embedding on the defined domain. -/
def calibrate (cfg : BenchmarkConfig) (mean_warmup : ℚ) : ℤ × ℤ :=
  let round_time : ℚ := (cfg.max_time_ns : ℚ) / (cfg.ideal_rounds : ℚ)
  let iter_per_round : ℤ := min (cfg.ideal_iterations : ℤ) (pyInt (round_time / mean_warmup))
  if iter_per_round < (cfg.min_iterations : ℤ) then
    ((cfg.min_iterations : ℤ),
     max (cfg.min_rounds : ℤ)
       (pyInt ((cfg.max_time_ns : ℚ) / (mean_warmup * (cfg.min_iterations : ℚ)))))
  else
    (iter_per_round, (cfg.ideal_rounds : ℤ))

/-- The measured-phase loop of `run_benchmark`.  Round `i` observes the
clock pair `ticks i = (tic, toc)`; the loop appends `toc - tic`, and after
each round breaks with a timeout flag when `toc - start > limit`
(`limit = max_time_ns * 2`).  Returns `(round times, timed out, last toc)`;
the third component starts as `start_time` (source initialises
`toc = start_time` before the loop). -/
def runRounds (ticks : ℕ → ℤ × ℤ) (start limit : ℤ) : ℕ → ℕ → ℤ → List ℤ × Bool × ℤ
  | _, 0, toc0 => ([], false, toc0)
  | i, n+1, _ =>
    let tic := (ticks i).1
    let toc := (ticks i).2
    if limit < toc - start then ([toc - tic], true, toc)
    else
      let rest := runRounds ticks start limit (i+1) n toc
      ((toc - tic) :: rest.1, rest.2.1, rest.2.2)

/-- Python `min(times)` on a (guarded nonempty) list; junk value on `[]`. -/
def listMinD : List ℤ → ℤ
  | [] => 0
  | t :: ts => ts.foldl min t

/-- Python `max(times)` on a (guarded nonempty) list; junk value on `[]`. -/
def listMaxD : List ℤ → ℤ
  | [] => 0
  | t :: ts => ts.foldl max t

/-- `statistics.mean(times)` over integer round times: exact arithmetic mean. -/
def meanQ (l : List ℤ) : ℚ := ((l.sum : ℤ) : ℚ) / (l.length : ℚ)

/-- Sample variance, the square of `statistics.stdev(times)`. -/
def sampleVarQ (l : List ℤ) : ℚ :=
  ((l.map (fun x => ((x : ℚ) - meanQ l) * ((x : ℚ) - meanQ l))).sum) / ((l.length : ℚ) - 1)

/-- `high_threshold = int(best_ns * (1 + high_percentage / 100))`. -/
def highThreshold (cfg : BenchmarkConfig) (times : List ℤ) : ℤ :=
  pyInt ((listMinD times : ℚ) * (1 + (cfg.high_percentage : ℚ) / 100))

/-- `high_rounds = sum(1 for t in times if t > high_threshold)`. -/
def highCount (cfg : BenchmarkConfig) (times : List ℤ) : ℕ :=
  times.countP (fun t => decide (highThreshold cfg times < t))

/-- Statistics and record assembly after the measured loop (source lines
85-107).  Python raises on short samples — `min([])` is a `ValueError` and
`stdev` of a single round a `StatisticsError` — modelled as `none`.
`roundsReq` is the requested round count: the source divides `high_rounds`
by it (`high_prop = high_rounds / rounds`), not by `len(times)`. -/
def mkBench (cfg : BenchmarkConfig) (name : String) (group : Option String)
    (ipr : ℤ) (roundsReq : ℕ) (times : List ℤ) (timedOut : Bool)
    (benchTime : ℤ) : Option Benchmark :=
  if times.length < 2 then none
  else
    let high_rounds := highCount cfg times
    let high_prop : ℚ := (high_rounds : ℚ) / (roundsReq : ℚ)
    some { name := name
           group := group
           best_ns := listMinD times
           worse_ns := listMaxD times
           mean_ns := meanQ times
           stddev_ns := sampleVarQ times
           bench_time_ns := benchTime
           rounds := times.length
           iter_per_round := ipr
           high_rounds := high_rounds
           warnings :=
             (if timedOut then ["Benchmark timed out"] else [])
               ++ (if 1/10 < high_prop then [highWarning high_prop] else []) }

/-- The measured phase of `BenchmarkRun.run_benchmark` (source lines 68-107)
for already-calibrated `iter_per_round` and `rounds`.  The inner
`for _ in loop_range: func(*args)` has no observable effect in the
embedding; its cost is reflected in the clock oracle `ticks`. -/
def runMeasure (cfg : BenchmarkConfig) (name : String) (group : Option String)
    (iter_per_round : ℤ) (rounds : ℕ) (start_time : ℤ)
    (ticks : ℕ → ℤ × ℤ) : Option Benchmark :=
  let r := runRounds ticks start_time ((cfg.max_time_ns : ℤ) * 2) 0 rounds start_time
  mkBench cfg name group iter_per_round rounds r.1 r.2.1 (r.2.2 - start_time)

/-- `BenchmarkRun.run_benchmark` end to end: calibration from the warmup
mean, then the measured phase.  `range` of a negative round count is empty,
hence `.toNat`. -/
def run_benchmark (cfg : BenchmarkConfig) (name : String) (group : Option String)
    (mean_warmup : ℚ) (start_time : ℤ) (ticks : ℕ → ℤ × ℤ) : Option Benchmark :=
  let c := calibrate cfg mean_warmup
  runMeasure cfg name group c.1 c.2.toNat start_time ticks

/-- `BenchmarkRun`: the mutable session aggregate (source `__init__`),
minus the rich table object, which is pure presentation. -/
structure BenchmarkRun where
  config : BenchmarkConfig
  benchmarks : List Benchmark
  units : String
  div : ℤ
  current_group : Option String
  group_best : Option ℚ
deriving DecidableEq

/-- A fresh `BenchmarkRun` (source `__init__` field values). -/
def initRun (cfg : BenchmarkConfig) : BenchmarkRun :=
  { config := cfg, benchmarks := [], units := "s", div := 1000000000,
    current_group := none, group_best := none }

/-- The `run_benchmark` method seen as a state transformer on the session:
measure, append the record to `self.benchmarks`, and return it. -/
def run_benchmark_method (run : BenchmarkRun) (name : String)
    (group : Option String) (mean_warmup : ℚ) (start_time : ℤ)
    (ticks : ℕ → ℤ × ℤ) : Option (BenchmarkRun × Benchmark) :=
  match run_benchmark run.config name group mean_warmup start_time ticks with
  | none => none
  | some b => some ({ run with benchmarks := run.benchmarks ++ [b] }, b)

/-- Best per-call time of a record, `bm.best_ns / bm.iter_per_round`. -/
def perCallBest (b : Benchmark) : ℚ := (b.best_ns : ℚ) / (b.iter_per_round : ℚ)

/-- The minimum of `best_ns / iter_per_round` over a record list (Python
`min(...)`, junk value on the empty list, which the source guards against). -/
def minBestPerCall : List Benchmark → ℚ
  | [] => 0
  | b :: rest => rest.foldl (fun m x => min m (perCallBest x)) (perCallBest b)

/-- `BenchmarkRun._prepare_units` (source lines 219-232): choose the shared
display unit and divisor from the fastest best-per-call time.  `none` models
`min()` raising on an empty sequence (`print_table` returns early in that
case). -/
def prepare_units : List Benchmark → Option (String × ℤ)
  | [] => none
  | b :: rest =>
    let min_time := rest.foldl (fun m x => min m (perCallBest x)) (perCallBest b)
    some (if min_time < 1000 then ("ns", 1)
          else if min_time < 1000000 then ("µs", 1000)
          else if min_time < 1000000000 then ("ms", 1000000)
          else ("s", 1000000000))

/-- Modelled from the spec: "pick ns/µs/ms/s by thresholds 1e3/1e6/1e9 and
set the corresponding divisor", as a function of the fastest best-per-call
time; compared against `prepare_units`. -/
def choose_units_spec (fastest : ℚ) : String × ℤ :=
  if fastest < 1000 then ("ns", 1)
  else if fastest < 1000000 then ("µs", 1000)
  else if fastest < 1000000000 then ("ms", 1000000)
  else ("s", 1000000000)

/-- The sort key of `print_table`'s
`self.benchmarks.sort(key=lambda bm: (bm.group, bm.mean_ns))`. -/
def sortKey (b : Benchmark) : Option String × ℚ := (b.group, b.mean_ns)

/-- Python `<` on the key tuples: compare first components for equality,
fall through to the second on equality, otherwise order the first
components — `None < str` (either way round) raises `TypeError`, modelled
as `Except.error`. -/
def pyKeyLt (a b : Option String × ℚ) : Except Unit Bool :=
  if a.1 = b.1 then .ok (decide (a.2 < b.2))
  else
    match a.1, b.1 with
    | some x, some y => .ok (decide (x < y))
    | _, _ => .error ()

/-- Comparison of two records by their sort keys. -/
def benchLt (a b : Benchmark) : Except Unit Bool := pyKeyLt (sortKey a) (sortKey b)

/-- Stable insertion into an already-sorted prefix, propagating comparison
failure (the element is placed after every element it is not strictly
smaller than, which matches the stable order Python's sort produces). -/
def insertE {α : Type} (lt : α → α → Except Unit Bool) (x : α) :
    List α → Except Unit (List α)
  | [] => .ok [x]
  | y :: ys =>
    match lt x y with
    | .error e => .error e
    | .ok true => .ok (x :: y :: ys)
    | .ok false =>
      match insertE lt x ys with
      | .error e => .error e
      | .ok l => .ok (y :: l)

/-- Comparison-sort in the `Except` monad (stable; same outcome and the
same failure behaviour on a comparison error as `list.sort`). -/
def sortE {α : Type} (lt : α → α → Except Unit Bool) :
    List α → List α → Except Unit (List α)
  | acc, [] => .ok acc
  | acc, x :: xs =>
    match insertE lt x acc with
    | .error e => .error e
    | .ok acc2 => sortE lt acc2 xs

/-- The record sort of `print_table` (source line 162). -/
def sort_benchmarks (l : List Benchmark) : Except Unit (List Benchmark) :=
  sortE benchLt [] l

/-- The total fragment of the Python key comparison (the value it returns
whenever it does not raise), used to state what order the sort produces. -/
def kLtB (a b : Option String × ℚ) : Bool :=
  if a.1 = b.1 then decide (a.2 < b.2)
  else
    match a.1, b.1 with
    | some x, some y => decide (x < y)
    | _, _ => false

/-- Pure stable insertion mirroring `insertE` on comparison-total inputs. -/
def insertP (x : Benchmark) : List Benchmark → List Benchmark
  | [] => [x]
  | y :: ys =>
    if kLtB (sortKey x) (sortKey y) then x :: y :: ys else y :: insertP x ys

/-- Pure counterpart of `sortE`. -/
def sortAccP : List Benchmark → List Benchmark → List Benchmark
  | acc, [] => acc
  | acc, x :: xs => sortAccP (insertP x acc) xs

/-- `BenchmarkRun._add_group_row` (source lines 173-197), restricted to the
data it computes: the updated `current_group`/`group_best` state and the
`Relative` column text.  Row styling (`green`/`cyan`/`red`, `end_section`)
and the table mutation are presentation only and carry no data.  Arithmetic
on a `None` `group_best` (a `TypeError` in Python) is `Except.error`. -/
def add_group_row (run : BenchmarkRun) (b : Benchmark) :
    Except Unit (BenchmarkRun × String) :=
  let best_ns : ℚ := (b.best_ns : ℚ) / (b.iter_per_round : ℚ)
  if b.group ≠ run.current_group then
    .ok ({ run with current_group := b.group, group_best := some best_ns }, "")
  else
    match run.group_best with
    | none => .error ()
    | some gb =>
      if gb * 2 < best_ns then
        .ok (run, "x" ++ fmtFixed2 (best_ns / gb))
      else
        .ok (run, "+" ++ fmtPercent ((best_ns - gb) / gb))

/-- A completed external process: return code and captured stdout. -/
structure Completed where
  returncode : ℤ
  stdout : String
deriving DecidableEq

/-- `subprocess.run(..., check=True)`: with `check` set, a nonzero return
code raises `CalledProcessError` before the caller can look at it. -/
def subprocess_run (check : Bool) (p : Completed) : Except Unit Completed :=
  if check ∧ p.returncode ≠ 0 then .error () else .ok p

/-- `git_summary` (source lines 250-258), parameterised by the outcomes of
the two git commands.  The source calls `subprocess.run` with `check=True`
and only afterwards tests `p.returncode != 0`, so the blank-label fallback
branches are dead code. -/
def git_summary (branchCmd commitCmd : Completed) : Except Unit (String × String) :=
  match subprocess_run true branchCmd with
  | .error e => .error e
  | .ok p =>
    if p.returncode ≠ 0 then .ok ("", "")
    else
      let branch := p.stdout.trim
      match subprocess_run true commitCmd with
      | .error e => .error e
      | .ok q =>
        if q.returncode ≠ 0 then .ok (branch, "")
        else .ok (branch, (q.stdout.trim.take 7))

/-- First example record for the C9 witness (per-call best 10 ns). -/
def exR1 : Benchmark :=
  { name := "a", group := some "g", best_ns := 10, worse_ns := 10, mean_ns := 1,
    stddev_ns := 0, bench_time_ns := 10, rounds := 2, iter_per_round := 1,
    high_rounds := 0, warnings := [] }

/-- Second example record for the C9 witness (per-call best 12 ns). -/
def exR2 : Benchmark := { exR1 with name := "b", best_ns := 12, mean_ns := 2 }

/-- Third example record for the C9 witness (per-call best 25 ns). -/
def exR3 : Benchmark := { exR1 with name := "c", best_ns := 25, mean_ns := 3 }

/-- Render state after the anchor record of group `g` with per-call best 10. -/
def exState : BenchmarkRun :=
  { initRun defaultConfig with current_group := some "g", group_best := some 10 }

/-- The record produced by the concrete measurement used in witnesses:
default config, warmup mean 1 ms (calibrating to 1000 iterations and 30
rounds), and a clock making every round take 5 ns. -/
def witnessRecord : Benchmark :=
  { name := "t", group := none, best_ns := 5, worse_ns := 5, mean_ns := 5,
    stddev_ns := 0, bench_time_ns := 295, rounds := 30, iter_per_round := 1000,
    high_rounds := 0, warnings := [] }

/-- The clock oracle for the C1 witness: ten rounds, the last two twice as
slow as the first eight. -/
def highTicks : ℕ → ℤ × ℤ :=
  fun i => ((100*i : ℤ), (100*i + (if i < 8 then 100 else 200) : ℤ))

/-- The record produced by the C1 witness measurement: 2 of 10 rounds high,
warning string `20.00% of iterations are high!`. -/
def highWitnessRecord : Benchmark :=
  { name := "t", group := none, best_ns := 100, worse_ns := 200, mean_ns := 120,
    stddev_ns := 16000/9, bench_time_ns := 1100, rounds := 10,
    iter_per_round := 1000, high_rounds := 2,
    warnings := ["20.00% of iterations are high!"] }

/-- The clock oracle for the C2 witness: round 0 is quick, round 1 blows the
2× budget. -/
def timeoutTicks : ℕ → ℤ × ℤ :=
  fun i => if i = 0 then ((0:ℤ), (10:ℤ)) else ((20:ℤ), (7000000000:ℤ))

instance {ε α : Type} [DecidableEq ε] [DecidableEq α] : DecidableEq (Except ε α) :=
  fun x y =>
    match x, y with
    | .error a, .error b =>
      if h : a = b then .isTrue (by rw [h])
      else .isFalse (by intro hc; injection hc; contradiction)
    | .error _, .ok _ => .isFalse (by intro hc; cases hc)
    | .ok _, .error _ => .isFalse (by intro hc; cases hc)
    | .ok a, .ok b =>
      if h : a = b then .isTrue (by rw [h])
      else .isFalse (by intro hc; injection hc; contradiction)

/-- An ungrouped record for the C3 counterexample and witness. -/
def mixedU : Benchmark :=
  { name := "u", group := none, best_ns := 1, worse_ns := 1, mean_ns := 1,
    stddev_ns := 0, bench_time_ns := 1, rounds := 2, iter_per_round := 1,
    high_rounds := 0, warnings := [] }

/-- A grouped record for the C3 counterexample. -/
def mixedG : Benchmark := { mixedU with name := "g", group := some "a" }

/-- A second ungrouped record for the C3 witness. -/
def mixedV : Benchmark := { mixedU with name := "v", mean_ns := 2 }

/-! ### Helper lemmas -/

theorem pyInt_eq_floor {q : ℚ} (h : 0 ≤ q) : pyInt q = ⌊q⌋ := by
  rw [pyInt, Rat.floor_def]
  exact Int.tdiv_eq_ediv (Rat.num_nonneg.mpr h) (Int.natCast_nonneg _)

theorem foldl_min_le_init (l : List ℤ) (a : ℤ) : l.foldl min a ≤ a := by
  induction l generalizing a with
  | nil => simp
  | cons y ys ih => exact le_trans (ih (min a y)) (min_le_left a y)

theorem foldl_min_le_mem {l : List ℤ} {x : ℤ} (a : ℤ) (hx : x ∈ l) :
    l.foldl min a ≤ x := by
  induction l generalizing a with
  | nil => cases hx
  | cons y ys ih =>
    rcases List.mem_cons.mp hx with rfl | h
    · exact le_trans (foldl_min_le_init ys (min a x)) (min_le_right a x)
    · exact ih (min a y) h

theorem init_le_foldl_max (l : List ℤ) (a : ℤ) : a ≤ l.foldl max a := by
  induction l generalizing a with
  | nil => simp
  | cons y ys ih => exact le_trans (le_max_left a y) (ih (max a y))

theorem mem_le_foldl_max {l : List ℤ} {x : ℤ} (a : ℤ) (hx : x ∈ l) :
    x ≤ l.foldl max a := by
  induction l generalizing a with
  | nil => cases hx
  | cons y ys ih =>
    rcases List.mem_cons.mp hx with rfl | h
    · exact le_trans (le_max_right a x) (init_le_foldl_max ys (max a x))
    · exact ih (max a y) h

theorem listMinD_le {l : List ℤ} {x : ℤ} (hx : x ∈ l) : listMinD l ≤ x := by
  match l with
  | [] => cases hx
  | t :: ts =>
    rcases List.mem_cons.mp hx with rfl | h
    · exact foldl_min_le_init ts x
    · exact foldl_min_le_mem t h

theorem le_listMaxD {l : List ℤ} {x : ℤ} (hx : x ∈ l) : x ≤ listMaxD l := by
  match l with
  | [] => cases hx
  | t :: ts =>
    rcases List.mem_cons.mp hx with rfl | h
    · exact init_le_foldl_max ts x
    · exact mem_le_foldl_max t h

theorem mul_length_le_sum {l : List ℤ} {c : ℤ} (h : ∀ x ∈ l, c ≤ x) :
    c * (l.length : ℤ) ≤ l.sum := by
  induction l with
  | nil => simp
  | cons y ys ih =>
    have h1 := h y (List.mem_cons_self y ys)
    have h2 := ih (fun x hx => h x (List.mem_cons_of_mem y hx))
    simp only [List.sum_cons, List.length_cons]
    push_cast
    nlinarith

theorem sum_le_mul_length {l : List ℤ} {c : ℤ} (h : ∀ x ∈ l, x ≤ c) :
    l.sum ≤ c * (l.length : ℤ) := by
  induction l with
  | nil => simp
  | cons y ys ih =>
    have h1 := h y (List.mem_cons_self y ys)
    have h2 := ih (fun x hx => h x (List.mem_cons_of_mem y hx))
    simp only [List.sum_cons, List.length_cons]
    push_cast
    nlinarith

theorem listMinD_le_meanQ {l : List ℤ} (h : l ≠ []) : (listMinD l : ℚ) ≤ meanQ l := by
  have hlen : 0 < (l.length : ℚ) := by
    have := List.length_pos.mpr h
    exact_mod_cast this
  rw [meanQ, le_div_iff₀ hlen]
  have := mul_length_le_sum (l := l) (c := listMinD l) (fun x hx => listMinD_le hx)
  exact_mod_cast this

theorem meanQ_le_listMaxD {l : List ℤ} (h : l ≠ []) : meanQ l ≤ (listMaxD l : ℚ) := by
  have hlen : 0 < (l.length : ℚ) := by
    have := List.length_pos.mpr h
    exact_mod_cast this
  rw [meanQ, div_le_iff₀ hlen]
  have := sum_le_mul_length (l := l) (c := listMaxD l) (fun x hx => le_listMaxD hx)
  exact_mod_cast this

theorem runRounds_length_le (ticks : ℕ → ℤ × ℤ) (start limit : ℤ) :
    ∀ (n i : ℕ) (toc0 : ℤ), ((runRounds ticks start limit i n toc0).1).length ≤ n := by
  intro n
  induction n with
  | zero => intro i toc0; simp [runRounds]
  | succ m ih =>
    intro i toc0
    simp only [runRounds]
    split
    · simp
    · simpa using ih (i+1) ((ticks i).2)

theorem runRounds_not_timed (ticks : ℕ → ℤ × ℤ) (start limit : ℤ) :
    ∀ (n i : ℕ) (toc0 : ℤ), (runRounds ticks start limit i n toc0).2.1 = false →
      ((runRounds ticks start limit i n toc0).1).length = n := by
  intro n
  induction n with
  | zero => intro i toc0 _; simp [runRounds]
  | succ m ih =>
    intro i toc0 hflag
    simp only [runRounds] at hflag ⊢
    split at hflag
    · simp at hflag
    · next hcond =>
      rw [if_neg hcond]
      simpa using ih (i+1) ((ticks i).2) hflag

theorem runRounds_trigger (ticks : ℕ → ℤ × ℤ) (start limit : ℤ) :
    ∀ (k n i : ℕ) (toc0 : ℤ), k < n →
      limit < (ticks (i+k)).2 - start →
      (∀ j, j < k → ¬ limit < (ticks (i+j)).2 - start) →
      runRounds ticks start limit i n toc0 =
        ((List.range (k+1)).map (fun j => (ticks (i+j)).2 - (ticks (i+j)).1),
          true, (ticks (i+k)).2) := by
  intro k
  induction k with
  | zero =>
    intro n i toc0 hkn htrig _
    cases n with
    | zero => cases hkn
    | succ m =>
      simp only [runRounds]
      rw [if_pos (by simpa using htrig)]
      simp [List.range_succ]
  | succ k ih =>
    intro n i toc0 hkn htrig hno
    cases n with
    | zero => cases hkn
    | succ m =>
      simp only [runRounds]
      rw [if_neg (by simpa using hno 0 (Nat.succ_pos k))]
      rw [ih m (i+1) ((ticks i).2) (by omega)
        (by rw [show i+1+k = i+(k+1) from by omega]; exact htrig)
        (fun j hj => by
          rw [show i+1+j = i+(j+1) from by omega]
          exact hno (j+1) (by omega))]
      have hidx : i + 1 + k = i + (k + 1) := by omega
      have hlist : ((ticks i).2 - (ticks i).1) ::
          (List.range (k+1)).map (fun j => (ticks (i+1+j)).2 - (ticks (i+1+j)).1)
          = (List.range (k+1+1)).map (fun j => (ticks (i+j)).2 - (ticks (i+j)).1) := by
        conv_rhs => rw [List.range_succ_eq_map, List.map_cons, List.map_map]
        refine congrArg₂ List.cons ?_ ?_
        · simp
        apply List.map_congr_left
        intro j _
        simp only [Function.comp_apply]
        rw [show i + 1 + j = i + (j + 1) from by omega]
      rw [hidx, hlist]

theorem mkBench_eq_some {cfg : BenchmarkConfig} {name : String}
    {group : Option String} {ipr : ℤ} {roundsReq : ℕ} {times : List ℤ}
    {timedOut : Bool} {benchTime : ℤ} {b : Benchmark}
    (h : mkBench cfg name group ipr roundsReq times timedOut benchTime = some b) :
    2 ≤ times.length ∧
    b.name = name ∧ b.group = group ∧
    b.best_ns = listMinD times ∧ b.worse_ns = listMaxD times ∧
    b.mean_ns = meanQ times ∧ b.bench_time_ns = benchTime ∧
    b.rounds = times.length ∧ b.iter_per_round = ipr ∧
    b.high_rounds = highCount cfg times ∧
    b.warnings = (if timedOut then ["Benchmark timed out"] else [])
      ++ (if 1/10 < ((highCount cfg times : ℚ) / (roundsReq : ℚ)) then
            [highWarning ((highCount cfg times : ℚ) / (roundsReq : ℚ))] else []) := by
  rw [mkBench] at h
  split at h
  · exact Option.noConfusion h
  · next hlen =>
    have hb := Option.some.inj h
    subst hb
    refine ⟨by omega, rfl, rfl, rfl, rfl, rfl, rfl, rfl, rfl, rfl, rfl⟩

theorem highWarning_ne_timeout (p : ℚ) : highWarning p ≠ "Benchmark timed out" := by
  intro h
  have hl := congrArg String.length h
  rw [highWarning, String.length_append] at hl
  have h24 : (" of iterations are high!").length = 24 := by decide
  have h19 : ("Benchmark timed out").length = 19 := by decide
  omega

theorem calibrate_iter_ge (cfg : BenchmarkConfig) (m : ℚ) :
    (cfg.min_iterations : ℤ) ≤ (calibrate cfg m).1 := by
  rw [calibrate]
  split
  · exact le_refl _
  · next hge => exact le_of_not_lt hge

theorem calibrate_rounds_ge (cfg : BenchmarkConfig) (m : ℚ) :
    min (cfg.min_rounds : ℤ) (cfg.ideal_rounds : ℤ) ≤ (calibrate cfg m).2 := by
  rw [calibrate]
  split
  · exact le_trans (min_le_left _ _) (le_max_left _ _)
  · exact min_le_right _ _

theorem insertP_mem {l : List Benchmark} {x z : Benchmark} (hz : z ∈ insertP x l) :
    z = x ∨ z ∈ l := by
  induction l with
  | nil =>
    rw [insertP] at hz
    exact Or.inl (List.mem_singleton.mp hz)
  | cons y ys ih =>
    rw [insertP] at hz
    split at hz
    · rcases List.mem_cons.mp hz with rfl | h
      · exact Or.inl rfl
      · exact Or.inr h
    · rcases List.mem_cons.mp hz with rfl | h
      · exact Or.inr (List.mem_cons_self _ _)
      · rcases ih h with h1 | h2
        · exact Or.inl h1
        · exact Or.inr (List.mem_cons_of_mem _ h2)

theorem insertE_ok (x : Benchmark) : ∀ (l : List Benchmark),
    (∀ y ∈ l, benchLt x y = .ok (kLtB (sortKey x) (sortKey y))) →
    insertE benchLt x l = .ok (insertP x l) := by
  intro l
  induction l with
  | nil => intro _; rfl
  | cons y ys ih =>
    intro hok
    have hy := hok y (List.mem_cons_self y ys)
    have hih := ih (fun z hz => hok z (List.mem_cons_of_mem y hz))
    rw [insertE, insertP, hy, hih]
    cases hk : kLtB (sortKey x) (sortKey y) <;> simp [hk]

theorem sortE_ok (P : Benchmark → Prop)
    (hP : ∀ a b, P a → P b → benchLt a b = .ok (kLtB (sortKey a) (sortKey b))) :
    ∀ (xs acc : List Benchmark), (∀ y ∈ xs, P y) → (∀ y ∈ acc, P y) →
      sortE benchLt acc xs = .ok (sortAccP acc xs) := by
  intro xs
  induction xs with
  | nil => intro acc _ _; rfl
  | cons x xs ih =>
    intro acc hxs hacc
    have hins : insertE benchLt x acc = .ok (insertP x acc) :=
      insertE_ok x acc (fun y hy => hP x y (hxs x (List.mem_cons_self x xs)) (hacc y hy))
    rw [sortE, sortAccP, hins]
    exact ih (insertP x acc) (fun z hz => hxs z (List.mem_cons_of_mem x hz))
      (fun z hz => by
        rcases insertP_mem hz with hzx | h
        · rw [hzx]; exact hxs x (List.mem_cons_self x xs)
        · exact hacc z h)

theorem insertP_pairwise (P : Benchmark → Prop)
    (hasym : ∀ a b, P a → P b → kLtB (sortKey a) (sortKey b) = true →
      kLtB (sortKey b) (sortKey a) = false)
    (htrans : ∀ a b c, P a → P b → P c → kLtB (sortKey a) (sortKey b) = true →
      kLtB (sortKey b) (sortKey c) = true → kLtB (sortKey a) (sortKey c) = true) :
    ∀ (l : List Benchmark) (x : Benchmark), (∀ y ∈ l, P y) → P x →
      l.Pairwise (fun a b => kLtB (sortKey b) (sortKey a) = false) →
      (insertP x l).Pairwise (fun a b => kLtB (sortKey b) (sortKey a) = false) := by
  intro l
  induction l with
  | nil =>
    intro x _ _ _
    rw [insertP]
    exact List.pairwise_singleton _ _
  | cons y ys ih =>
    intro x hl hx hpw
    rw [List.pairwise_cons] at hpw
    obtain ⟨hy_all, hpw_ys⟩ := hpw
    rw [insertP]
    split
    · next hk =>
      refine List.Pairwise.cons ?_ (List.Pairwise.cons hy_all hpw_ys)
      intro z hz
      rcases List.mem_cons.mp hz with hzy | hzys
      · rw [hzy]
        exact hasym x y hx (hl y (List.mem_cons_self _ _)) hk
      · cases hzx : kLtB (sortKey z) (sortKey x) with
        | false => rfl
        | true =>
          exfalso
          have := htrans z x y (hl z (List.mem_cons_of_mem _ hzys)) hx
            (hl y (List.mem_cons_self _ _)) hzx hk
          rw [hy_all z hzys] at this
          cases this
    · next hk =>
      have hkfalse : kLtB (sortKey x) (sortKey y) = false :=
        Bool.not_eq_true _ ▸ hk
      refine List.Pairwise.cons ?_
        (ih x (fun z hz => hl z (List.mem_cons_of_mem _ hz)) hx hpw_ys)
      intro z hz
      rcases insertP_mem hz with hzx | hzys
      · rw [hzx]
        exact hkfalse
      · exact hy_all z hzys

theorem sortAccP_pairwise (P : Benchmark → Prop)
    (hasym : ∀ a b, P a → P b → kLtB (sortKey a) (sortKey b) = true →
      kLtB (sortKey b) (sortKey a) = false)
    (htrans : ∀ a b c, P a → P b → P c → kLtB (sortKey a) (sortKey b) = true →
      kLtB (sortKey b) (sortKey c) = true → kLtB (sortKey a) (sortKey c) = true) :
    ∀ (xs acc : List Benchmark), (∀ y ∈ xs, P y) → (∀ y ∈ acc, P y) →
      acc.Pairwise (fun a b => kLtB (sortKey b) (sortKey a) = false) →
      (sortAccP acc xs).Pairwise (fun a b => kLtB (sortKey b) (sortKey a) = false) := by
  intro xs
  induction xs with
  | nil => intro acc _ _ h; exact h
  | cons x xs ih =>
    intro acc hxs hacc hpw
    rw [sortAccP]
    refine ih (insertP x acc)
      (fun z hz => hxs z (List.mem_cons_of_mem _ hz))
      (fun z hz => ?_)
      (insertP_pairwise P hasym htrans acc x hacc (hxs x (List.mem_cons_self _ _)) hpw)
    rcases insertP_mem hz with hzx | h
    · rw [hzx]; exact hxs x (List.mem_cons_self _ _)
    · exact hacc z h

theorem insertP_perm (l : List Benchmark) (x : Benchmark) :
    (insertP x l).Perm (x :: l) := by
  induction l with
  | nil =>
    rw [insertP]
  | cons y ys ih =>
    rw [insertP]
    split
    · exact List.Perm.refl _
    · exact (List.Perm.cons y ih).trans (List.Perm.swap x y ys)

theorem sortAccP_perm : ∀ (xs acc : List Benchmark),
    (sortAccP acc xs).Perm (acc ++ xs) := by
  intro xs
  induction xs with
  | nil =>
    intro acc
    rw [sortAccP, List.append_nil]
  | cons x xs ih =>
    intro acc
    rw [sortAccP]
    refine (ih (insertP x acc)).trans ?_
    refine (List.Perm.append_right xs (insertP_perm acc x)).trans ?_
    exact List.perm_middle.symm

theorem kLtB_none_none (m n : ℚ) :
    kLtB (none, m) (none, n) = decide (m < n) := by
  simp [kLtB]

theorem kLtB_some_some (x y : String) (m n : ℚ) :
    kLtB (some x, m) (some y, n)
      = if x = y then decide (m < n) else decide (x < y) := by
  by_cases h : x = y
  · subst h
    simp [kLtB]
  · simp [kLtB, h]

theorem pyKeyLt_none_none (m n : ℚ) :
    pyKeyLt (none, m) (none, n) = .ok (decide (m < n)) := by
  simp [pyKeyLt]

theorem pyKeyLt_some_some (x y : String) (m n : ℚ) :
    pyKeyLt (some x, m) (some y, n)
      = .ok (if x = y then decide (m < n) else decide (x < y)) := by
  by_cases h : x = y
  · subst h
    simp [pyKeyLt]
  · simp [pyKeyLt, h]

theorem sortKey_of_none {a : Benchmark} (ha : a.group = none) :
    sortKey a = (none, a.mean_ns) := by
  rw [sortKey, ha]

theorem sortKey_of_some {a : Benchmark} {x : String} (ha : a.group = some x) :
    sortKey a = (some x, a.mean_ns) := by
  rw [sortKey, ha]

theorem benchLt_ok_none {a b : Benchmark} (ha : a.group = none) (hb : b.group = none) :
    benchLt a b = .ok (kLtB (sortKey a) (sortKey b)) := by
  rw [benchLt, sortKey_of_none ha, sortKey_of_none hb, pyKeyLt_none_none,
    kLtB_none_none]

theorem benchLt_ok_some {a b : Benchmark} (ha : a.group ≠ none) (hb : b.group ≠ none) :
    benchLt a b = .ok (kLtB (sortKey a) (sortKey b)) := by
  obtain ⟨x, hx⟩ := Option.ne_none_iff_exists'.mp ha
  obtain ⟨y, hy⟩ := Option.ne_none_iff_exists'.mp hb
  rw [benchLt, sortKey_of_some hx, sortKey_of_some hy, pyKeyLt_some_some,
    kLtB_some_some]

theorem kLtB_asym_none {a b : Benchmark} (ha : a.group = none) (hb : b.group = none)
    (h : kLtB (sortKey a) (sortKey b) = true) :
    kLtB (sortKey b) (sortKey a) = false := by
  rw [sortKey_of_none ha, sortKey_of_none hb, kLtB_none_none] at h ⊢
  simp only [decide_eq_true_eq] at h
  simp only [decide_eq_false_iff_not]
  exact not_lt.mpr h.le

theorem kLtB_trans_none {a b c : Benchmark} (ha : a.group = none)
    (hb : b.group = none) (hc : c.group = none)
    (h1 : kLtB (sortKey a) (sortKey b) = true)
    (h2 : kLtB (sortKey b) (sortKey c) = true) :
    kLtB (sortKey a) (sortKey c) = true := by
  rw [sortKey_of_none ha, sortKey_of_none hb, kLtB_none_none] at h1
  rw [sortKey_of_none hb, sortKey_of_none hc, kLtB_none_none] at h2
  rw [sortKey_of_none ha, sortKey_of_none hc, kLtB_none_none]
  simp only [decide_eq_true_eq] at h1 h2 ⊢
  exact lt_trans h1 h2

theorem kLtB_asym_some {a b : Benchmark} (ha : a.group ≠ none) (hb : b.group ≠ none)
    (h : kLtB (sortKey a) (sortKey b) = true) :
    kLtB (sortKey b) (sortKey a) = false := by
  obtain ⟨x, hx⟩ := Option.ne_none_iff_exists'.mp ha
  obtain ⟨y, hy⟩ := Option.ne_none_iff_exists'.mp hb
  rw [sortKey_of_some hx, sortKey_of_some hy, kLtB_some_some] at h ⊢
  by_cases hxy : x = y
  · subst hxy
    rw [if_pos rfl] at h ⊢
    simp only [decide_eq_true_eq] at h
    simp only [decide_eq_false_iff_not]
    exact not_lt.mpr h.le
  · rw [if_neg hxy] at h
    rw [if_neg (Ne.symm hxy)]
    simp only [decide_eq_true_eq] at h
    simp only [decide_eq_false_iff_not]
    exact not_lt.mpr h.le

theorem kLtB_trans_some {a b c : Benchmark} (ha : a.group ≠ none)
    (hb : b.group ≠ none) (hc : c.group ≠ none)
    (h1 : kLtB (sortKey a) (sortKey b) = true)
    (h2 : kLtB (sortKey b) (sortKey c) = true) :
    kLtB (sortKey a) (sortKey c) = true := by
  obtain ⟨x, hx⟩ := Option.ne_none_iff_exists'.mp ha
  obtain ⟨y, hy⟩ := Option.ne_none_iff_exists'.mp hb
  obtain ⟨z, hz⟩ := Option.ne_none_iff_exists'.mp hc
  rw [sortKey_of_some hx, sortKey_of_some hy, kLtB_some_some] at h1
  rw [sortKey_of_some hy, sortKey_of_some hz, kLtB_some_some] at h2
  rw [sortKey_of_some hx, sortKey_of_some hz, kLtB_some_some]
  by_cases hxy : x = y <;> by_cases hyz : y = z
  · subst hxy; subst hyz
    rw [if_pos rfl] at h1 h2 ⊢
    simp only [decide_eq_true_eq] at h1 h2 ⊢
    exact lt_trans h1 h2
  · subst hxy
    rw [if_pos rfl] at h1
    rw [if_neg hyz] at h2
    rw [if_neg hyz]
    exact h2
  · subst hyz
    rw [if_neg hxy] at h1
    rw [if_pos rfl] at h2
    rw [if_neg hxy]
    exact h1
  · rw [if_neg hxy] at h1
    rw [if_neg hyz] at h2
    simp only [decide_eq_true_eq] at h1 h2
    have hxz : x < z := lt_trans h1 h2
    rw [if_neg (ne_of_lt hxz)]
    simp only [decide_eq_true_eq]
    exact hxz

/-! ### Claim theorems -/

section ClaimTheorems

set_option maxRecDepth 40000
set_option maxHeartbeats 2000000

attribute [local semireducible] Rat.mul Rat.add Rat.sub Rat.inv Rat.ofScientific

/-- C4: failure of the git lookup is claimed to be soft (blank label, report
still produced), but the source calls `subprocess.run` with `check=True`, so
a nonzero return status raises `CalledProcessError` before the dead
`if p.returncode != 0` fallback can run: `git_summary` propagates the error
and the report is aborted.  This theorem evaluates the code at the failing
input (branch lookup exits with status 1). -/
theorem git_summary_raises_on_failure :
    git_summary { returncode := 1, stdout := "main" }
      { returncode := 0, stdout := "0123456789abcdef" } = .error () := by decide

/-- C5: for a positive warmup mean `m` (and a positive `ideal_rounds`, which
Python needs to divide by), calibration computes
`iter_per_round = min(ideal_iterations, floor((max_time_ns / ideal_rounds) / m))`;
below `min_iterations` it is clamped to `min_iterations` with
`rounds = max(min_rounds, floor(max_time_ns / (m * min_iterations)))`,
otherwise `rounds = ideal_rounds`. -/
theorem calibrate_formula (cfg : BenchmarkConfig) (m : ℚ)
    (hm : 0 < m) (hr : 0 < cfg.ideal_rounds) :
    calibrate cfg m =
      (if min (cfg.ideal_iterations : ℤ)
            ⌊((cfg.max_time_ns : ℚ) / (cfg.ideal_rounds : ℚ)) / m⌋
          < (cfg.min_iterations : ℤ) then
        ((cfg.min_iterations : ℤ),
         max (cfg.min_rounds : ℤ)
           ⌊(cfg.max_time_ns : ℚ) / (m * (cfg.min_iterations : ℚ))⌋)
      else
        (min (cfg.ideal_iterations : ℤ)
          ⌊((cfg.max_time_ns : ℚ) / (cfg.ideal_rounds : ℚ)) / m⌋,
         (cfg.ideal_rounds : ℤ))) := by
  have h1 : pyInt (((cfg.max_time_ns : ℚ) / (cfg.ideal_rounds : ℚ)) / m)
      = ⌊((cfg.max_time_ns : ℚ) / (cfg.ideal_rounds : ℚ)) / m⌋ :=
    pyInt_eq_floor
      (div_nonneg (div_nonneg (Nat.cast_nonneg _) (Nat.cast_nonneg _)) hm.le)
  have h2 : pyInt ((cfg.max_time_ns : ℚ) / (m * (cfg.min_iterations : ℚ)))
      = ⌊(cfg.max_time_ns : ℚ) / (m * (cfg.min_iterations : ℚ))⌋ :=
    pyInt_eq_floor (div_nonneg (Nat.cast_nonneg _) (mul_nonneg hm.le (Nat.cast_nonneg _)))
  simp only [calibrate, h1, h2]

/-- Witness for C5 at the default configuration and a 1 ms warmup mean:
the formula yields `iter_per_round = 1000` (clamped) and `rounds = 30`. -/
theorem calibrate_formula_witness : calibrate defaultConfig 1000000 = (1000, 30) :=
  (calibrate_formula defaultConfig 1000000 (by norm_num) (by decide)).trans (by decide)

/-- C6 counterexample: with `ideal_rounds := 1` (all other fields default,
in particular `min_rounds = 30`) and a constant per-call cost of 1 ns
(positive), calibration takes the fast branch and returns
`rounds = ideal_rounds = 1 < min_rounds`, refuting
`rounds ≥ min_rounds` for every configuration. -/
theorem calibrate_rounds_below_min_cex :
    (0 : ℚ) < 1 ∧
    (calibrate { defaultConfig with ideal_rounds := 1 } 1).2
      < (({ defaultConfig with ideal_rounds := 1 } : BenchmarkConfig).min_rounds : ℤ) := by
  exact ⟨by norm_num, by decide⟩

/-- C6 (amended): for every configuration and warmup mean, calibration
returns `iter_per_round ≥ min_iterations`, and
`rounds ≥ min(min_rounds, ideal_rounds)` — so `rounds ≥ min_rounds` holds
whenever `ideal_rounds ≥ min_rounds` (true of the defaults), but the fast
branch returns `ideal_rounds` un-floored. -/
theorem calibrate_lower_bounds (cfg : BenchmarkConfig) (m : ℚ) :
    (cfg.min_iterations : ℤ) ≤ (calibrate cfg m).1 ∧
    min (cfg.min_rounds : ℤ) (cfg.ideal_rounds : ℤ) ≤ (calibrate cfg m).2 :=
  ⟨calibrate_iter_ge cfg m, calibrate_rounds_ge cfg m⟩

/-- C8: for every non-empty record set, unit selection picks the unit and
divisor from the minimum over all records of `best_ns / iter_per_round`, by
the spec's 1e3/1e6/1e9 thresholds. -/
theorem units_selection (bms : List Benchmark) (h : bms ≠ []) :
    prepare_units bms = some (choose_units_spec (minBestPerCall bms)) := by
  match bms with
  | [] => exact absurd rfl h
  | b :: rest => rfl

/-- Witness for C8: a record set whose fastest best-per-call time is 500 ns
selects nanoseconds with divisor 1. -/
theorem units_selection_witness :
    prepare_units
      [{ name := "a", group := none, best_ns := 500, worse_ns := 500,
         mean_ns := 500, stddev_ns := 0, bench_time_ns := 1000, rounds := 2,
         iter_per_round := 1, high_rounds := 0, warnings := [] }]
      = some ("ns", 1) := by
  rw [units_selection _ (List.cons_ne_nil _ _)]
  decide

/-- C9: in grouped rendering, a record opening a new group is the anchor —
empty relative column, and the group best becomes its per-call best time;
a subsequent record of the same group renders `x{ratio}` when its per-call
best exceeds twice the group best and `+{percent over best}` otherwise. -/
theorem group_row_relative (run : BenchmarkRun) (b : Benchmark) (gb : ℚ) :
    (b.group ≠ run.current_group →
      add_group_row run b =
        .ok ({ run with current_group := b.group, group_best := some ((b.best_ns : ℚ) / (b.iter_per_round : ℚ)) }, "")) ∧
    (b.group = run.current_group → run.group_best = some gb →
      add_group_row run b =
        .ok (run,
          if gb * 2 < (b.best_ns : ℚ) / (b.iter_per_round : ℚ) then
            "x" ++ fmtFixed2 (((b.best_ns : ℚ) / (b.iter_per_round : ℚ)) / gb)
          else
            "+" ++ fmtPercent ((((b.best_ns : ℚ) / (b.iter_per_round : ℚ)) - gb) / gb))) := by
  constructor
  · intro hne
    simp only [add_group_row]
    rw [if_pos hne]
  · intro heq hgb
    simp only [add_group_row]
    rw [if_neg (fun hn => hn heq), hgb]
    split
    · next hq => exact absurd hq (by simp)
    · next gb2 hq =>
      injection hq with hq
      subst hq
      split <;> rfl

/-- Witness for C9: per-call bests 10, 12, 25 in one group render as the
anchor, `+20.00%`, and `x2.50` (since 25 > 2·10). -/
theorem group_row_relative_witness :
    add_group_row (initRun defaultConfig) exR1 = .ok (exState, "") ∧
    add_group_row exState exR2 = .ok (exState, "+20.00%") ∧
    add_group_row exState exR3 = .ok (exState, "x2.50") := by
  refine ⟨?_, ?_, ?_⟩
  · exact ((group_row_relative (initRun defaultConfig) exR1 0).1 (by decide)).trans
      (by decide)
  · exact ((group_row_relative exState exR2 10).2 (by decide) (by decide)).trans
      (by decide)
  · exact ((group_row_relative exState exR3 10).2 (by decide) (by decide)).trans
      (by decide)

/-- C10: every successful `run_benchmark` call appends exactly the returned
record at the end of the session's record list and leaves everything else in
the session (and in particular all previously stored records) unchanged. -/
theorem run_benchmark_appends (run : BenchmarkRun) (name : String)
    (group : Option String) (m : ℚ) (start : ℤ) (ticks : ℕ → ℤ × ℤ)
    (p : BenchmarkRun × Benchmark)
    (h : run_benchmark_method run name group m start ticks = some p) :
    p.1.benchmarks = run.benchmarks ++ [p.2] ∧
    p.1.config = run.config ∧ p.1.units = run.units ∧ p.1.div = run.div ∧
    p.1.current_group = run.current_group ∧ p.1.group_best = run.group_best ∧
    run_benchmark run.config name group m start ticks = some p.2 := by
  rw [run_benchmark_method] at h
  split at h
  · cases h
  · next b heq =>
    injection h with h
    subst h
    exact ⟨rfl, rfl, rfl, rfl, rfl, rfl, heq⟩

/-- Witness for C10: a concrete successful call appends the returned record. -/
theorem run_benchmark_appends_witness :
    run_benchmark_method (initRun defaultConfig) "t" none 1000000 0
        (fun i => ((10*i : ℤ), (10*i+5 : ℤ)))
      = some ({ initRun defaultConfig with benchmarks := [witnessRecord] },
              witnessRecord) ∧
    ({ initRun defaultConfig with benchmarks := [witnessRecord] } : BenchmarkRun).benchmarks
      = (initRun defaultConfig).benchmarks ++ [witnessRecord] := by
  have hsome : run_benchmark_method (initRun defaultConfig) "t" none 1000000 0
      (fun i => ((10*i : ℤ), (10*i+5 : ℤ)))
      = some ({ initRun defaultConfig with benchmarks := [witnessRecord] },
              witnessRecord) := by decide
  exact ⟨hsome, (run_benchmark_appends _ _ _ _ _ _ _ hsome).1⟩

/-- C7: every record produced by a full measurement under the (constant)
default configuration with a positive warmup mean satisfies
`best_ns ≤ mean_ns ≤ worse_ns`; its `rounds` field is at least 1, equals the
number of rounds actually executed by the loop, and is at most the requested
round count; and `iter_per_round ≥ 1`. -/
theorem benchmark_invariants (name : String) (group : Option String) (m : ℚ)
    (start : ℤ) (ticks : ℕ → ℤ × ℤ) (b : Benchmark)
    (hm : 0 < m)
    (h : run_benchmark defaultConfig name group m start ticks = some b) :
    ((b.best_ns : ℚ) ≤ b.mean_ns ∧ b.mean_ns ≤ (b.worse_ns : ℚ)) ∧
    1 ≤ b.rounds ∧
    b.rounds = ((runRounds ticks start ((defaultConfig.max_time_ns : ℤ) * 2) 0
        (calibrate defaultConfig m).2.toNat start).1).length ∧
    b.rounds ≤ (calibrate defaultConfig m).2.toNat ∧
    1 ≤ b.iter_per_round := by
  simp only [run_benchmark, runMeasure] at h
  obtain ⟨hlen, _, _, hbest, hworse, hmean, _, hrounds, hipr, _, _⟩ := mkBench_eq_some h
  have hne : (runRounds ticks start ((defaultConfig.max_time_ns : ℤ) * 2) 0
      (calibrate defaultConfig m).2.toNat start).1 ≠ [] := by
    intro hnil
    rw [hnil] at hlen
    simp at hlen
  refine ⟨⟨?_, ?_⟩, by omega, hrounds, ?_, ?_⟩
  · rw [hbest, hmean]
    exact listMinD_le_meanQ hne
  · rw [hmean, hworse]
    exact meanQ_le_listMaxD hne
  · rw [hrounds]
    exact runRounds_length_le ticks start _ _ 0 start
  · rw [hipr]
    refine le_trans ?_ (calibrate_iter_ge defaultConfig m)
    decide

/-- Witness for C7: the concrete measurement behind `witnessRecord`
(default config, 1 ms warmup mean, 5 ns rounds) satisfies the invariants. -/
theorem benchmark_invariants_witness :
    run_benchmark defaultConfig "t" none 1000000 0
        (fun i => ((10*i : ℤ), (10*i+5 : ℤ))) = some witnessRecord ∧
    ((witnessRecord.best_ns : ℚ) ≤ witnessRecord.mean_ns ∧
      witnessRecord.mean_ns ≤ (witnessRecord.worse_ns : ℚ)) ∧
    1 ≤ witnessRecord.rounds ∧ 1 ≤ witnessRecord.iter_per_round := by
  have hsome : run_benchmark defaultConfig "t" none 1000000 0
      (fun i => ((10*i : ℤ), (10*i+5 : ℤ))) = some witnessRecord := by decide
  have hthm := benchmark_invariants "t" none 1000000 0
    (fun i => ((10*i : ℤ), (10*i+5 : ℤ))) witnessRecord (by norm_num) hsome
  exact ⟨hsome, hthm.1, hthm.2.1, hthm.2.2.2.2⟩

/-- C1 counterexample: requested 100 rounds, but the second round trips the
2× timeout, so only 2 rounds execute, one of them (6999999850 ns against a
best of 100 ns) high.  The proportion over *executed* rounds is 1/2 > 0.10,
yet the produced record carries no percentage warning — the source divides
`high_rounds` by the *requested* round count (1/100 ≤ 0.10). -/
theorem high_warning_uses_requested_rounds_cex :
    (runMeasure defaultConfig "t" none 1000 100 0
        (fun i => if i = 0 then ((0:ℤ), (100:ℤ)) else ((150:ℤ), (7000000000:ℤ)))).map
        (fun b => (b.warnings, b.rounds, b.high_rounds)) =
      some (["Benchmark timed out"], 2, 1) ∧
    (1 : ℚ)/10 < (1 : ℚ)/2 :=
  ⟨by decide, by norm_num⟩

/-- C1 (amended): for every measured benchmark, `high_rounds` is the number
of round times above `int(best*(1+high_percentage/100))`, and the anomaly
warning (the formatted percentage string) is appended iff `high_rounds`
divided by the *requested* round count exceeds 0.10; when no timeout
occurred the requested count equals the executed count, recovering the
claim's reading for benchmarks that did not time out. -/
theorem high_warning_amended (cfg : BenchmarkConfig) (name : String)
    (group : Option String) (ipr : ℤ) (rounds : ℕ) (start : ℤ)
    (ticks : ℕ → ℤ × ℤ) (b : Benchmark)
    (h : runMeasure cfg name group ipr rounds start ticks = some b) :
    b.high_rounds = highCount cfg
        ((runRounds ticks start ((cfg.max_time_ns : ℤ) * 2) 0 rounds start).1) ∧
    (highWarning ((b.high_rounds : ℚ) / (rounds : ℚ)) ∈ b.warnings ↔
      (1 : ℚ)/10 < (b.high_rounds : ℚ) / (rounds : ℚ)) ∧
    ("Benchmark timed out" ∉ b.warnings → b.rounds = rounds) := by
  simp only [runMeasure] at h
  obtain ⟨hlen, _, _, _, _, _, _, hrounds, _, hhigh, hw⟩ := mkBench_eq_some h
  refine ⟨hhigh, ?_, ?_⟩
  · rw [hw, hhigh]
    constructor
    · intro hmem
      rcases List.mem_append.mp hmem with hmem1 | hmem2
      · exfalso
        split at hmem1
        · exact highWarning_ne_timeout _ (List.mem_singleton.mp hmem1)
        · cases hmem1
      · split at hmem2
        · next hcond => exact hcond
        · cases hmem2
    · intro hcond
      refine List.mem_append.mpr (Or.inr ?_)
      rw [if_pos hcond]
      exact List.mem_singleton_self _
  · intro hnot
    by_cases hf : (runRounds ticks start ((cfg.max_time_ns : ℤ) * 2) 0
        rounds start).2.1 = true
    · exfalso
      apply hnot
      rw [hw, hf]
      exact List.mem_append.mpr (Or.inl (by simp))
    · rw [hrounds]
      exact runRounds_not_timed ticks start _ rounds 0 start
        (Bool.not_eq_true _ ▸ hf)

/-- Witness for C1 (amended): a benchmark where 20% of the (fully executed)
rounds are high yields `high_rounds = 2` and the `20.00%` warning. -/
theorem high_warning_amended_witness :
    runMeasure defaultConfig "t" none 1000 10 0 highTicks = some highWitnessRecord ∧
    (highWarning ((highWitnessRecord.high_rounds : ℚ) / ((10 : ℕ) : ℚ))
        ∈ highWitnessRecord.warnings ↔
      (1 : ℚ)/10 < (highWitnessRecord.high_rounds : ℚ) / ((10 : ℕ) : ℚ)) := by
  have hsome : runMeasure defaultConfig "t" none 1000 10 0 highTicks
      = some highWitnessRecord := by decide
  exact ⟨hsome,
    (high_warning_amended defaultConfig "t" none 1000 10 0 highTicks
      highWitnessRecord hsome).2.1⟩

/-- C2 counterexample: when the very first round alone exceeds the 2× budget
the loop stops with a single round time, and `statistics.stdev` of a
one-element sample raises `StatisticsError`: no Benchmark record is
returned, refuting the claim for that case. -/
theorem timeout_first_round_cex :
    runMeasure defaultConfig "t" none 1000 100 0
        (fun _ => ((0:ℤ), (7000000000:ℤ))) = none ∧
    (defaultConfig.max_time_ns : ℤ) * 2 < (7000000000 : ℤ) - 0 :=
  ⟨by decide, by decide⟩

/-- C2 (amended): if the timeout condition first holds at the boundary of
round `k` with `1 ≤ k < rounds` (so at least two rounds have executed), the
measurer appends the timed-out warning, executes exactly `k+1 ≤ rounds`
rounds, and still returns a complete record assembled from those rounds
(best and mean over the executed round times, total time up to the breaking
round).  The `1 ≤ k` hypothesis is necessary: by
the first-round counterexample, a timeout on round 0 produces no record. -/
theorem timeout_partial_results (cfg : BenchmarkConfig) (name : String)
    (group : Option String) (ipr : ℤ) (rounds k : ℕ) (start : ℤ)
    (ticks : ℕ → ℤ × ℤ)
    (hk1 : 1 ≤ k) (hkr : k < rounds)
    (htrig : (cfg.max_time_ns : ℤ) * 2 < (ticks k).2 - start)
    (hbefore : ∀ j, j < k → ¬ ((cfg.max_time_ns : ℤ) * 2 < (ticks j).2 - start)) :
    ∃ b, runMeasure cfg name group ipr rounds start ticks = some b ∧
      b.rounds = k + 1 ∧ b.rounds ≤ rounds ∧
      "Benchmark timed out" ∈ b.warnings ∧
      b.bench_time_ns = (ticks k).2 - start ∧
      b.best_ns = listMinD ((List.range (k+1)).map (fun j => (ticks j).2 - (ticks j).1)) ∧
      b.mean_ns = meanQ ((List.range (k+1)).map (fun j => (ticks j).2 - (ticks j).1)) := by
  have hrr := runRounds_trigger ticks start ((cfg.max_time_ns : ℤ) * 2) k rounds 0
    start hkr (by simpa using htrig) (by simpa using hbefore)
  simp only [Nat.zero_add] at hrr
  simp only [runMeasure, hrr]
  have hlist : ((List.range (k+1)).map
      (fun j => (ticks j).2 - (ticks j).1)).length = k + 1 := by simp
  cases hopt : mkBench cfg name group ipr rounds
      ((List.range (k+1)).map (fun j => (ticks j).2 - (ticks j).1)) true
      ((ticks k).2 - start) with
  | none =>
    exfalso
    rw [mkBench] at hopt
    split at hopt
    · next hshort => rw [hlist] at hshort; omega
    · cases hopt
  | some b =>
    obtain ⟨_, _, _, hbest, _, hmean, hbt, hrounds, _, _, hw⟩ := mkBench_eq_some hopt
    refine ⟨b, rfl, ?_, ?_, ?_, hbt, hbest, hmean⟩
    · rw [hrounds, hlist]
    · rw [hrounds, hlist]; omega
    · rw [hw]
      exact List.mem_append.mpr (Or.inl (by simp))

/-- Witness for C2 (amended): with the timeout tripping on round 1 of 100
requested, a record over the 2 executed rounds is returned with the
timed-out warning. -/
theorem timeout_partial_results_witness :
    ∃ b, runMeasure defaultConfig "t" none 1000 100 0 timeoutTicks = some b ∧
      b.rounds = 1 + 1 ∧ b.rounds ≤ 100 ∧
      "Benchmark timed out" ∈ b.warnings ∧
      b.bench_time_ns = (timeoutTicks 1).2 - 0 ∧
      b.best_ns = listMinD ((List.range (1+1)).map
        (fun j => (timeoutTicks j).2 - (timeoutTicks j).1)) ∧
      b.mean_ns = meanQ ((List.range (1+1)).map
        (fun j => (timeoutTicks j).2 - (timeoutTicks j).1)) :=
  timeout_partial_results defaultConfig "t" none 1000 100 1 0 timeoutTicks
    (by norm_num) (by norm_num) (by decide) (by decide)

/-- C3 counterexample: sorting a session that contains one ungrouped and one
grouped record compares a `(None, mean)` key with a `(str, mean)` key, and
Python raises `TypeError` — the sort has no stable placeholder for `None`
and its comparison is not total on mixed record sets. -/
theorem mixed_group_sort_cex :
    sort_benchmarks [mixedU, mixedG] = .error () := by decide

/-- C3 (amended): the sort key is `(group, mean_ns)` with no placeholder for
ungrouped records.  On a homogeneous record set — every record grouped, or
every record ungrouped — the sort succeeds and returns a permutation of the
records that is sorted by the key comparison (group lexicographically first,
then mean); on mixed sets the comparison raises (see the counterexample). -/
theorem homogeneous_sort_ok (l : List Benchmark)
    (h : (∀ b ∈ l, b.group = none) ∨ (∀ b ∈ l, b.group ≠ none)) :
    ∃ l2, sort_benchmarks l = .ok l2 ∧ l2.Perm l ∧
      l2.Pairwise (fun a b => kLtB (sortKey b) (sortKey a) = false) := by
  have hperm : (sortAccP [] l).Perm l := by
    simpa using sortAccP_perm l []
  rcases h with h | h
  · refine ⟨sortAccP [] l, ?_, hperm, ?_⟩
    · rw [sort_benchmarks]
      exact sortE_ok (fun b => b.group = none)
        (fun a b ha hb => benchLt_ok_none ha hb) l [] h (by simp)
    · exact sortAccP_pairwise (fun b => b.group = none)
        (fun a b ha hb hab => kLtB_asym_none ha hb hab)
        (fun a b c ha hb hc h1 h2 => kLtB_trans_none ha hb hc h1 h2)
        l [] h (by simp) List.Pairwise.nil
  · refine ⟨sortAccP [] l, ?_, hperm, ?_⟩
    · rw [sort_benchmarks]
      exact sortE_ok (fun b => b.group ≠ none)
        (fun a b ha hb => benchLt_ok_some ha hb) l [] h (by simp)
    · exact sortAccP_pairwise (fun b => b.group ≠ none)
        (fun a b ha hb hab => kLtB_asym_some ha hb hab)
        (fun a b c ha hb hc h1 h2 => kLtB_trans_some ha hb hc h1 h2)
        l [] h (by simp) List.Pairwise.nil

/-- Witness for C3 (amended): two ungrouped records sort without error into
a key-sorted permutation. -/
theorem homogeneous_sort_ok_witness :
    ∃ l2, sort_benchmarks [mixedV, mixedU] = .ok l2 ∧
      l2.Perm [mixedV, mixedU] ∧
      l2.Pairwise (fun a b => kLtB (sortKey b) (sortKey a) = false) :=
  homogeneous_sort_ok [mixedV, mixedU] (Or.inl (by decide))

end ClaimTheorems

end PytestSpeed
